import Mathlib

/-!
Verification of the CRM123 lead-generation pipeline.

This file gives a shallow embedding, in Lean 4, of the query-tiering and
result-consolidation pipeline of the repository (src/backend/services.py and
src/app.py), and proves or refutes the specified properties.

Modelling conventions:
* Python strings are Lean `String`s; the Python string operations used by the
  code (`lower`, `strip`, `split`, `in`, `startswith`, `rstrip`, `title`,
  `join`, slicing at a separator) are re-implemented below on `List Char`
  so that every definition is executable and kernel-reducible.  The
  re-implementations cover the ASCII fragment, which is the fragment the
  repository's keyword tables, markers, and URLs live in.
* Network backends (Brave, DuckDuckGo) are parameters: a backend response is
  `Option (List RawHit)` where `none` models a missing API key, a transport
  error, a non-200 status, or an exception, exactly the conditions under
  which the Python code advances its fallback ladder.
* The thread pools in `run_search_logic` and `find_people_at_companies`
  join all their futures before any result is used, so they are modelled by
  explicit sequencing; the `as_completed` merge order of the company fan-out
  is an explicit `order` parameter.  A future whose call raised is modelled
  by an `Option` result (`none` = raised, caught by the caller).
* `ThreadPoolExecutor(max_workers=0)` raising `ValueError` (Python stdlib
  behaviour, reached when `min(len(targets), 6) = 0`) is modelled by
  returning `Except.error`.
-/

set_option maxRecDepth 8000

/-! ## Data model (src/backend/models.py, src/app.py dataclasses) -/

/-- One web-search hit (models.SearchResult / app.SearchResult). -/
structure SearchResult where
  title : String
  url : String
  snippet : String
  company : String
deriving Repr, DecidableEq

/-- Structured search intent (models.ParsedIntent). -/
structure ParsedIntent where
  icp : String
  industry : String
  region : String
  search_type : String
  raw_prompt : String
  extra_keywords : List String
deriving Repr, DecidableEq

/-- Structured search intent of the app.py variant (app.ParsedPrompt):
same fields except `extra_keywords`. -/
structure ParsedPrompt where
  icp : String
  industry : String
  region : String
  search_type : String
  raw_prompt : String
deriving Repr, DecidableEq

/-- A raw provider record, `{title, href/url, body/description}`-shaped,
as handed to `search_web` by the Brave or DuckDuckGo backend. -/
structure RawHit where
  title : String
  url : String
  body : String
deriving Repr, DecidableEq

/-- Consolidated response (models.SearchResponse). -/
structure SearchResponse where
  agencies : List SearchResult
  people : List SearchResult
  company_people : List SearchResult
  parsed_intent : ParsedIntent
deriving Repr, DecidableEq

/-! ## Python string primitives, re-implemented on `List Char` -/

/-- Helper of `strContains`: does `needle` occur as a contiguous run in the
list?  Models Python's `needle in haystack`. -/
def containsAux (needle : List Char) : List Char → Bool
  | [] => needle.isPrefixOf []
  | c :: cs => needle.isPrefixOf (c :: cs) || containsAux needle cs

/-- Python `needle in hay` on strings. -/
def strContains (hay needle : String) : Bool := containsAux needle.data hay.data

/-- Python `a or b` on strings (empty string is falsy). -/
def pyOr (a b : String) : String := if a = "" then b else a

/-- Python `str.lower()` (ASCII fragment). -/
def pyLower (s : String) : String := String.mk (s.data.map Char.toLower)

/-- Python `str.strip()` with no argument: drop leading and trailing
whitespace. -/
def pyStrip (s : String) : String :=
  String.mk (((s.data.dropWhile Char.isWhitespace).reverse.dropWhile Char.isWhitespace).reverse)

/-- Helper of `pySplitWs`: whitespace-split with an accumulator holding the
current (reversed) word. -/
def splitWsAux : List Char → List Char → List String
  | [], acc => if acc = [] then [] else [String.mk acc.reverse]
  | c :: cs, acc =>
    if c.isWhitespace then
      if acc = [] then splitWsAux cs [] else String.mk acc.reverse :: splitWsAux cs []
    else splitWsAux cs (c :: acc)

/-- Python `str.split()` with no argument: split on whitespace runs, no empty
pieces. -/
def pySplitWs (s : String) : List String := splitWsAux s.data []

/-- Python `sep.join(parts)`. -/
def pyJoin (sep : String) : List String → String
  | [] => ""
  | [x] => x
  | x :: xs => x ++ sep ++ pyJoin sep xs

/-- Python `str.title()` on a char list: upper-case each cased character that
follows a non-cased one, lower-case the rest.  The flag records whether the
previous character was cased. -/
def titleCaseL : Bool → List Char → List Char
  | _, [] => []
  | prev, c :: cs =>
    if c.isAlpha then (if prev then c.toLower else c.toUpper) :: titleCaseL true cs
    else c :: titleCaseL false cs

/-- The part of the list strictly before the first `'?'`
(Python `url.split("?")[0]`). -/
def stripQueryL : List Char → List Char
  | [] => []
  | c :: cs => if c = '?' then [] else c :: stripQueryL cs

/-- Python `str.rstrip("/")`: drop every trailing `'/'`. -/
def rstripSlashL (cs : List Char) : List Char :=
  (cs.reverse.dropWhile (fun c => c = '/')).reverse

/-- The text strictly before the first occurrence of `sep`, or `none` when
`sep` does not occur (Python `s.split(sep, 1)[0]` plus the `sep in s` test). -/
def splitFirst (sep : List Char) : List Char → Option (List Char)
  | [] => none
  | c :: cs =>
    if sep.isPrefixOf (c :: cs) then some []
    else (splitFirst sep cs).map (fun l => c :: l)

/-! ## Result Filter/Dedup (services.py lines 136-171, app.py lines 334-375) -/

/-- Canonicalization key for dedup: URL with its query string removed and
trailing slashes stripped — `result.url.split("?")[0].rstrip("/")`. -/
def canonKey (s : String) : String := String.mk (rstripSlashL (stripQueryL s.data))

/-- Helper of `dedupe_by_url`: one left-to-right pass with the set of already
seen canonical keys (the Python `seen` set, modelled as a list). -/
def dedupeAux : List SearchResult → List String → List SearchResult
  | [], _ => []
  | r :: rs, seen =>
    if canonKey r.url ∈ seen then dedupeAux rs seen
    else r :: dedupeAux rs (canonKey r.url :: seen)

/-- `dedupe_by_url` of services.py/app.py: keep the first occurrence of each
canonical URL key, preserving order. -/
def dedupe_by_url (items : List SearchResult) : List SearchResult :=
  dedupeAux items []

/-- `is_linkedin_company`: the URL, lower-cased, contains the company-page
marker. -/
def is_linkedin_company (url : String) : Bool :=
  strContains (pyLower url) "linkedin.com/company/"

/-- `is_linkedin_profile`: the URL, lower-cased, contains the profile-page
marker. -/
def is_linkedin_profile (url : String) : Bool :=
  strContains (pyLower url) "linkedin.com/in/"

/-- The re.search of `_company_from_url`: first position where
`linkedin.com/company/` occurs followed by a non-empty run of characters
other than `'/'` and `'?'`; returns that run (the regex capture). -/
def companySlug : List Char → Option (List Char)
  | [] => none
  | c :: cs =>
    let lit := "linkedin.com/company/".data
    if lit.isPrefixOf (c :: cs) then
      let run := ((c :: cs).drop lit.length).takeWhile (fun ch => !(ch = '/' || ch = '?'))
      if run = [] then companySlug cs else some run
    else companySlug cs

/-- `_company_from_url`: capture the company slug, replace hyphens by spaces,
title-case; empty string when the pattern does not match. -/
def _company_from_url (url : String) : String :=
  match companySlug url.data with
  | some run => String.mk (titleCaseL false (run.map (fun c => if c = '-' then ' ' else c)))
  | none => ""

/-- `parse_agency_name`: split the title at the first separator from the
fixed priority list `|`, `·`, `—`, `-`; trimmed left side, falling back to
the whole trimmed title. -/
def parse_agency_name (title : String) : String :=
  match splitFirst ['|'] title.data with
  | some l => pyOr (pyStrip (String.mk l)) (pyStrip title)
  | none =>
    match splitFirst ['·'] title.data with
    | some l => pyOr (pyStrip (String.mk l)) (pyStrip title)
    | none =>
      match splitFirst ['—'] title.data with
      | some l => pyOr (pyStrip (String.mk l)) (pyStrip title)
      | none =>
        match splitFirst ['-'] title.data with
        | some l => pyOr (pyStrip (String.mk l)) (pyStrip title)
        | none => pyStrip title

/-! ## Intent Parser (services.py lines 17-93 `_regex_parse`, app.py lines 256-331 `parse_user_prompt`) -/

/-- Ordered role/function vocabulary (`ROLE_KW`). -/
def ROLE_KW : List String :=
  ["ceo", "cto", "cfo", "coo", "cmo", "vp", "svp", "evp",
   "director", "head", "manager", "lead", "founder", "co-founder",
   "partner", "principal", "strategist", "consultant", "analyst",
   "coordinator", "specialist", "executive",
   "marketing", "sales", "growth", "product", "engineering",
   "finance", "hr", "operations", "design", "data",
   "business development", "account executive", "sdr", "bdr"]

/-- Ordered canonical-industry → synonyms table (`INDUSTRY_KW`). -/
def INDUSTRY_KW : List (String × List String) :=
  [("healthcare", ["healthcare", "health", "medical", "pharma", "biotech", "healthtech"]),
   ("fintech", ["fintech", "finance", "banking", "payments", "defi", "neobank"]),
   ("saas", ["saas", "software", "b2b", "enterprise software"]),
   ("ecommerce", ["ecommerce", "e-commerce", "retail", "dtc", "shopify"]),
   ("ai", ["ai", "artificial intelligence", "machine learning", "ml", "deep learning", "llm"]),
   ("crypto", ["crypto", "blockchain", "web3", "nft"]),
   ("edtech", ["edtech", "education", "learning"]),
   ("real estate", ["real estate", "proptech", "property"]),
   ("cybersecurity", ["cybersecurity", "security", "infosec"]),
   ("cleantech", ["cleantech", "climate", "sustainability", "green"]),
   ("martech", ["martech", "adtech", "advertising"]),
   ("logistics", ["logistics", "supply chain", "shipping", "freight"])]

/-- Ordered canonical-region → synonyms table (`REGION_KW`). -/
def REGION_KW : List (String × List String) :=
  [("United States", ["us", "usa", "united states", "america"]),
   ("California", ["california", "ca", "sf", "san francisco", "bay area", "la", "los angeles", "silicon valley"]),
   ("New York", ["new york", "ny", "nyc", "manhattan"]),
   ("Texas", ["texas", "tx", "austin", "dallas", "houston"]),
   ("Europe", ["europe", "eu", "european"]),
   ("United Kingdom", ["uk", "united kingdom", "london", "england", "britain"]),
   ("Canada", ["canada", "toronto", "vancouver"]),
   ("Australia", ["australia", "sydney", "melbourne"]),
   ("India", ["india", "bangalore", "mumbai", "delhi"]),
   ("Germany", ["germany", "berlin", "munich"]),
   ("Remote", ["remote", "worldwide", "global", "anywhere"])]

/-- Agency-indicating token set of the search-type detector. -/
def agency_words : List String :=
  ["agency", "agencies", "company", "companies", "firm", "firms", "startup", "startups"]

/-- People-indicating token set of the search-type detector. -/
def people_words : List String :=
  ["people", "person", "profile", "profiles", "employee", "employees",
   "leader", "leaders", "founder", "founders", "who", "someone"]

/-- Helper of `pyUniq`: first-occurrence dedup with a seen accumulator. -/
def pyUniqAux : List String → List String → List String
  | [], _ => []
  | x :: xs, seen => if x ∈ seen then pyUniqAux xs seen else x :: pyUniqAux xs (x :: seen)

/-- Python `dict.fromkeys(l)` used as an order-preserving dedup. -/
def pyUniq (l : List String) : List String := pyUniqAux l []

/-- Role detection: matched role keywords (vocabulary order), first 4,
deduped, space-joined; empty string when nothing matches. -/
def icpFound (low : String) : String :=
  let found := ROLE_KW.filter (fun kw => strContains low kw)
  if found = [] then "" else pyJoin " " (pyUniq (found.take 4))

/-- First table entry one of whose synonyms occurs in the lower-cased
prompt (declaration order, first match wins). -/
def firstMatch : List (String × List String) → String → Option String
  | [], _ => none
  | (canon, syns) :: rest, low =>
    if syns.any (fun s => strContains low s) then some canon else firstMatch rest low

/-- Python word character, `\w` (ASCII fragment). -/
def isWordChar (c : Char) : Bool := c.isAlphanum || c = '_'

/-- Tail of the industry regex: `\s+(?:companies|startups|agencies|firms)`
matched at the given position. -/
def regexTail (cs : List Char) : Bool :=
  let rest := cs.dropWhile Char.isWhitespace
  !(cs.takeWhile Char.isWhitespace).isEmpty &&
    (["companies".data, "startups".data, "agencies".data, "firms".data].any
      (fun l => l.isPrefixOf rest))

/-- Match of `\s+(\w+(?:\s+\w+)?)\s+(?:companies|startups|agencies|firms)`
starting right after the `at`/`in`/`for` keyword; returns the capture.
Each `\s+`/`\w+` run is forced to be maximal (the following atom can never
consume its characters), so the only backtracking choice point of the
original pattern is whether the optional `(?:\s+\w+)` group is taken; the
greedy engine tries taking it first. -/
def matchAfterKw (cs : List Char) : Option (List Char) :=
  let ws1 := cs.takeWhile Char.isWhitespace
  let cs2 := cs.dropWhile Char.isWhitespace
  let w1 := cs2.takeWhile isWordChar
  let cs3 := cs2.drop w1.length
  if ws1.isEmpty || w1.isEmpty then none
  else
    let ws2 := cs3.takeWhile Char.isWhitespace
    let cs4 := cs3.dropWhile Char.isWhitespace
    let w2 := cs4.takeWhile isWordChar
    if !ws2.isEmpty && !w2.isEmpty && regexTail (cs4.drop w2.length) then
      some (w1 ++ ws2 ++ w2)
    else if regexTail cs3 then some w1
    else none

/-- Attempt of the alternation `(?:at|in|for)` at the current position
(the three literals start with distinct characters, so at most one
applies), followed by `matchAfterKw`. -/
def kwAt (cs : List Char) : Option (List Char) :=
  if "at".data.isPrefixOf cs then matchAfterKw (cs.drop 2)
  else if "in".data.isPrefixOf cs then matchAfterKw (cs.drop 2)
  else if "for".data.isPrefixOf cs then matchAfterKw (cs.drop 3)
  else none

/-- Leftmost-match scan of
`re.search(r"\b(?:at|in|for)\s+(\w+(?:\s+\w+)?)\s+(?:companies|startups|agencies|firms)", low)`.
The flag records whether the previous character is a word character (the
`\b` boundary test). -/
def searchIndustry : List Char → Bool → Option (List Char)
  | [], _ => none
  | c :: cs, prevWord =>
    match (if prevWord then none else kwAt (c :: cs)) with
    | some cap => some cap
    | none => searchIndustry cs (isWordChar c)

/-- The regex fallback capture for industry detection, as a `String`. -/
def regexIndustry (low : String) : Option String :=
  (searchIndustry low.data false).map String.mk

/-- Industry detection of `_regex_parse`: synonym table first, then the
regex fallback, else the empty string (the caller substitutes the
default). -/
def industryOf (low : String) : String :=
  match firstMatch INDUSTRY_KW low with
  | some c => c
  | none =>
    match regexIndustry low with
    | some cap => cap
    | none => ""

/-- Region detection of `_regex_parse`. -/
def regionOf (low : String) : String :=
  match firstMatch REGION_KW low with
  | some c => c
  | none => ""

/-- Token set of the search-type detector: lower-cased prompt split on
whitespace. -/
def tokensOf (prompt : String) : List String := pySplitWs (pyLower prompt)

/-- Search-type detection: `"agencies"` when only agency words occur,
`"people"` when only people words occur, `"both"` otherwise. -/
def searchTypeOf (low : String) : String :=
  let tokens := pySplitWs low
  let has_agency := agency_words.any (fun w => decide (w ∈ tokens))
  let has_people := people_words.any (fun w => decide (w ∈ tokens))
  if has_agency && !has_people then "agencies"
  else if has_people && !has_agency then "people"
  else "both"

/-- `_regex_parse` of services.py: the heuristic fallback parser.  `icp`
falls back to the raw prompt, `industry` to `"technology"`, `region` to
`"United States"`; `extra_keywords` is always empty. -/
def _regex_parse (prompt : String) : ParsedIntent :=
  let low := pyLower prompt
  ⟨pyOr (icpFound low) prompt,
   pyOr (industryOf low) "technology",
   pyOr (regionOf low) "United States",
   searchTypeOf low,
   prompt,
   []⟩

/-- `parse_user_prompt` of app.py: same heuristics, but `icp` falls back to
`"technology"` instead of the raw prompt. -/
def parse_user_prompt_app (prompt : String) : ParsedPrompt :=
  let low := pyLower prompt
  ⟨pyOr (icpFound low) "technology",
   pyOr (industryOf low) "technology",
   pyOr (regionOf low) "United States",
   searchTypeOf low,
   prompt⟩

/-! ## URL normalization: `_clean_url` (services.py lines 136-142, app.py lines 334-340) -/

/-- Hexadecimal digit value. -/
def hexVal (c : Char) : Option Nat :=
  if '0' ≤ c ∧ c ≤ '9' then some (c.toNat - '0'.toNat)
  else if 'a' ≤ c ∧ c ≤ 'f' then some (c.toNat - 'a'.toNat + 10)
  else if 'A' ≤ c ∧ c ≤ 'F' then some (c.toNat - 'A'.toNat + 10)
  else none

/-- Percent-decoding of `urllib.parse.unquote`: each `%XX` hex pair becomes
the character with that code; a `%` not followed by two hex digits is kept
and scanning resumes right after it.  (Python assembles multi-byte `%XX`
runs as UTF-8; this model maps each byte to the code point of the same
value, which agrees on the ASCII range used here.) -/
def percentDecodeL : List Char → List Char
  | [] => []
  | '%' :: h1 :: h2 :: rest =>
    match hexVal h1, hexVal h2 with
    | some v1, some v2 => Char.ofNat (16 * v1 + v2) :: percentDecodeL rest
    | _, _ => '%' :: percentDecodeL (h1 :: h2 :: rest)
  | c :: rest => c :: percentDecodeL rest

/-- `urllib.parse.unquote`. -/
def pyUnquote (s : String) : String := String.mk (percentDecodeL s.data)

/-- `urllib.parse.unquote_plus` (used inside `parse_qs`): `+` becomes a
space, then percent-decoding. -/
def pyUnquotePlus (s : String) : String :=
  String.mk (percentDecodeL (s.data.map (fun c => if c = '+' then ' ' else c)))

/-- Everything after the first occurrence of the character, empty when it
does not occur. -/
def dropThroughChar (t : Char) : List Char → List Char
  | [] => []
  | c :: cs => if c = t then cs else dropThroughChar t cs

/-- `urlparse(raw).query`: `urlsplit` removes the fragment (everything from
the first `#`) first, then the query is everything after the first `?` of
what remains. -/
def urlQuery (raw : String) : String :=
  String.mk (dropThroughChar '?' (raw.data.takeWhile (fun c => !(c = '#'))))

/-- Split on `&`, keeping empty fields (Python `qs.split('&')`). -/
def splitAmp : List Char → List Char → List (List Char)
  | [], acc => [acc.reverse]
  | c :: cs, acc => if c = '&' then acc.reverse :: splitAmp cs [] else splitAmp cs (c :: acc)

/-- `urllib.parse.parse_qsl` with default options: empty fields and fields
without `=` are skipped, values that are empty are skipped
(`keep_blank_values=False`), names and values are `unquote_plus`-decoded. -/
def parseQsl (qs : String) : List (String × String) :=
  (splitAmp qs.data []).filterMap (fun field =>
    if field = [] then none
    else
      match splitFirst ['='] field with
      | none => none
      | some nm =>
        let vl := field.drop (nm.length + 1)
        if vl = [] then none
        else some (pyUnquotePlus (String.mk nm), pyUnquotePlus (String.mk vl)))

/-- `parse_qs(...)[key][0]`: first value listed for `key`, `none` when the
key is absent (`parse_qs` groups `parse_qsl` pairs in order). -/
def qsLookup (qs : String) (key : String) : Option String :=
  List.lookup key (parseQsl qs)

/-- `_clean_url`: URLs containing one of the two redirector patterns are
replaced by the `unquote`d first value of the first present query parameter
among `u`, `uddg`, `r`; everything else (including pattern-matching URLs
with none of the three parameters) is returned unchanged. -/
def _clean_url (raw : String) : String :=
  if strContains raw "bing.com/aclick" || strContains raw "duckduckgo.com/l/" then
    let qs := urlQuery raw
    match qsLookup qs "u" with
    | some v => pyUnquote v
    | none =>
      match qsLookup qs "uddg" with
      | some v => pyUnquote v
      | none =>
        match qsLookup qs "r" with
        | some v => pyUnquote v
        | none => raw
  else raw

/-! ## Search Provider Adapter: `search_web` (services.py lines 173-232, app.py lines 378-406) -/

/-- Shared transformation of one backend's raw records: trim the fields,
normalize the URL with `_clean_url`, keep only records whose URL is
non-empty.  Both the Brave branch and the DuckDuckGo branch of `search_web`
apply exactly this. -/
def providerOutput (rs : List RawHit) : List SearchResult :=
  rs.filterMap (fun r =>
    let url := _clean_url (pyStrip r.url)
    if url = "" then none else some ⟨pyStrip r.title, url, pyStrip r.body, ""⟩)

/-- One rung of the backend ladder.  `none` models a missing API key, a
transport error, an exception or a non-200 status — every condition under
which the Python code advances to the next backend. -/
def backendStep (resp : Option (List RawHit)) : List SearchResult :=
  match resp with
  | none => []
  | some rs => providerOutput rs

/-- State machine of `re.sub(r'site:\S+|\x22', "", query)`: scanning left to
right, a literal `site:` followed by at least one non-whitespace character
deletes itself and the whole non-whitespace run (the flag `true` is the
"inside the run" state); a double quote deletes itself; every other
character is kept. -/
def sso : Bool → List Char → List Char
  | _, [] => []
  | true, c :: cs => if c.isWhitespace then c :: sso false cs else sso true cs
  | false, 's' :: 'i' :: 't' :: 'e' :: ':' :: c :: cs =>
    if c.isWhitespace then 's' :: 'i' :: 't' :: 'e' :: ':' :: sso false (c :: cs)
    else sso true cs
  | false, '"' :: cs => sso false cs
  | false, c :: cs => c :: sso false cs

/-- `re.sub(r'site:\S+|\x22', "", query)` on a query string. -/
def stripSiteOps (q : String) : List Char := sso false q.data

/-- The first four whitespace-separated terms of the query after stripping
`site:` operators and double quotes. -/
def placeholderKeywords (query : String) : List String :=
  (pySplitWs (String.mk (stripSiteOps query))).take 4

/-- The terminal backend of `search_web`: two static LinkedIn search links
built from the placeholder keywords. -/
def placeholderResults (query : String) : List SearchResult :=
  let keywords := placeholderKeywords query
  let term := pyJoin "+" keywords
  [⟨"LinkedIn Companies: " ++ pyJoin " " keywords,
    "https://www.linkedin.com/search/results/companies/?keywords=" ++ term,
    "Browse matching companies on LinkedIn", ""⟩,
   ⟨"LinkedIn People: " ++ pyJoin " " keywords,
    "https://www.linkedin.com/search/results/people/?keywords=" ++ term,
    "Browse matching profiles on LinkedIn", ""⟩]

/-- `search_web` of services.py: Brave first, then DuckDuckGo, then the
deterministic placeholder; a backend is skipped when it fails (`none`) or
when its filtered output is empty.  The `max_results` argument only sizes
the provider requests and does not affect the model. -/
def search_web (brave ddg : Option (List RawHit)) (query : String)
    (_max_results : Nat) : List SearchResult :=
  let b := backendStep brave
  if b ≠ [] then b
  else
    let d := backendStep ddg
    if d ≠ [] then d
    else placeholderResults query

/-! ## Tiered Query Planner (services.py lines 234-269, app.py lines 409-437) -/

/-- `_q` of services.py: trim the term; wrap it in double quotes when it
contains a space and does not already start with one. -/
def _q (term : String) : String :=
  let t := pyStrip term
  if strContains t " " && !(['"'].isPrefixOf t.data) then "\"" ++ t ++ "\"" else t

/-- Generic tier loop shared by the four planner variants: issue the tiers
in order, skipping all remaining tiers as soon as the accumulated hits have
reached the cap `n` (the `len(hits) >= n` check at the top of the Python
loop); each issued tier requests `n * 2` results and appends `sel` of the
backend response to the hits.  Returns the final hits together with the
list of queries actually issued. -/
def tierLoop (web : String → Nat → List SearchResult)
    (sel : List SearchResult → List SearchResult) (n : Nat) :
    List String → List SearchResult → List SearchResult × List String
  | [], hits => (hits, [])
  | q :: rest, hits =>
    if n ≤ hits.length then (hits, [])
    else
      let p := tierLoop web sel n rest (hits ++ sel (web q (n * 2)))
      (p.1, q :: p.2)

/-- The hits accumulated over a list of issued queries. -/
def tierHits (web : String → Nat → List SearchResult)
    (sel : List SearchResult → List SearchResult) (n : Nat) (qs : List String) :
    List SearchResult :=
  qs.flatMap (fun q => sel (web q (n * 2)))

/-- The field update `result.company = c` written out. -/
def setCompany (r : SearchResult) (c : String) : SearchResult :=
  ⟨r.title, r.url, r.snippet, c⟩

/-- Per-tier accumulation of app.py `find_agencies`: keep only classified
company hits, attributing the company name from the URL. -/
def classifyAgencyHits (rs : List SearchResult) : List SearchResult :=
  rs.filterMap (fun r =>
    if is_linkedin_company r.url then some (setCompany r (_company_from_url r.url))
    else none)

/-- Per-tier accumulation of app.py `find_people`: keep only classified
profile hits. -/
def profileFilter (rs : List SearchResult) : List SearchResult :=
  rs.filter (fun r => is_linkedin_profile r.url)

/-- Per-tier accumulation of services.py `find_agencies`: keep every
result, attributing the company name on classified company hits. -/
def srvTagAgency (rs : List SearchResult) : List SearchResult :=
  rs.map (fun r =>
    if is_linkedin_company r.url then setCompany r (_company_from_url r.url) else r)

/-- The three query tiers of app.py `find_agencies`, in documented order. -/
def appAgencyTiers (icp industry region : String) : List String :=
  ["site:linkedin.com/company \"" ++ icp ++ "\" " ++ industry ++ " agency \"" ++ region ++ "\"",
   "site:linkedin.com/company " ++ icp ++ " " ++ industry ++ " agency " ++ region,
   icp ++ " " ++ industry ++ " agency " ++ region ++ " linkedin.com/company"]

/-- The three query tiers of app.py `find_people`, in documented order. -/
def appPeopleTiers (icp industry region : String) : List String :=
  ["site:linkedin.com/in \"" ++ icp ++ "\" " ++ industry ++ " \"" ++ region ++ "\"",
   "site:linkedin.com/in " ++ icp ++ " " ++ industry ++ " " ++ region,
   icp ++ " " ++ industry ++ " " ++ region ++ " linkedin.com/in"]

/-- The two query tiers of services.py `find_agencies` (`_q`-quoted terms,
up to two extra keywords in the first tier only). -/
def srvAgencyTiers (icp industry region : String) (extra : List String) : List String :=
  let extra_str := if extra = [] then "" else pyJoin " " ((extra.take 2).map _q)
  [pyStrip ("site:linkedin.com/company " ++ _q icp ++ " " ++ _q industry ++ " " ++
     _q region ++ " " ++ extra_str),
   pyStrip ("site:linkedin.com/company " ++ _q icp ++ " " ++ _q region)]

/-- The two query tiers of services.py `find_people`. -/
def srvPeopleTiers (icp industry region : String) (extra : List String) : List String :=
  let extra_str := if extra = [] then "" else pyJoin " " ((extra.take 2).map _q)
  [pyStrip ("site:linkedin.com/in " ++ _q icp ++ " " ++ _q industry ++ " " ++
     _q region ++ " " ++ extra_str),
   pyStrip ("site:linkedin.com/in " ++ _q icp ++ " " ++ _q region)]

/-- app.py `find_agencies` — the strict (non-AI-keyword) planner variant.
The backend `web` is a parameter (query, request size ↦ results). -/
def find_agencies_app (web : String → Nat → List SearchResult)
    (icp industry region : String) (n : Nat) : List SearchResult :=
  (dedupe_by_url (tierLoop web classifyAgencyHits n (appAgencyTiers icp industry region) []).1).take n

/-- The queries actually issued by app.py `find_agencies`. -/
def find_agencies_app_queries (web : String → Nat → List SearchResult)
    (icp industry region : String) (n : Nat) : List String :=
  (tierLoop web classifyAgencyHits n (appAgencyTiers icp industry region) []).2

/-- app.py `find_people`. -/
def find_people_app (web : String → Nat → List SearchResult)
    (icp industry region : String) (n : Nat) : List SearchResult :=
  (dedupe_by_url (tierLoop web profileFilter n (appPeopleTiers icp industry region) []).1).take n

/-- services.py `find_agencies` (the AI-keyword variant). -/
def find_agencies_srv (web : String → Nat → List SearchResult)
    (icp industry region : String) (n : Nat) (extra : List String) : List SearchResult :=
  (dedupe_by_url (tierLoop web srvTagAgency n (srvAgencyTiers icp industry region extra) []).1).take n

/-- services.py `find_people` (no classifier filtering at all). -/
def find_people_srv (web : String → Nat → List SearchResult)
    (icp industry region : String) (n : Nat) (extra : List String) : List SearchResult :=
  (dedupe_by_url (tierLoop web (fun rs => rs) n (srvPeopleTiers icp industry region extra) []).1).take n

/-! ## Concrete backends and results used by counterexamples and witnesses -/

/-- A classified company hit. -/
def ceAgencyHit : SearchResult := ⟨"Acme", "https://linkedin.com/company/acme", "", ""⟩

/-- A backend answering every query with the single company hit. -/
def ceWebOne : String → Nat → List SearchResult := fun _ _ => [ceAgencyHit]

/-- A hit that is neither a LinkedIn company page nor a profile. -/
def badHit : SearchResult := ⟨"X", "https://example.com/not-linkedin", "", ""⟩

/-- A backend answering every query with the single non-LinkedIn hit. -/
def webBadOnly : String → Nat → List SearchResult := fun _ _ => [badHit]

/-- A classified profile hit. -/
def profHit : SearchResult := ⟨"Jane", "https://linkedin.com/in/jane", "", ""⟩

/-- A backend answering every query with the single profile hit. -/
def webProf : String → Nat → List SearchResult := fun _ _ => [profHit]

/-- `ceAgencyHit` with its company name attributed from the URL. -/
def ceAgencyTagged : SearchResult := ⟨"Acme", "https://linkedin.com/company/acme", "", "Acme"⟩

/-! ## Company→People Fan-out (services.py lines 271-299) and Orchestrator (lines 301-334) -/

/-- The tagging-and-capping loop of `_fetch_people_for_company`: append each
result with the company name attributed, breaking as soon as the number of
kept results reaches `per_company` (the check runs after each append, so
`per_company = 0` still keeps one result when any exists, exactly as in the
Python loop).  `k` counts results already kept. -/
def tagTake (name : String) (per : Nat) : List SearchResult → Nat → List SearchResult
  | [], _ => []
  | r :: rs, k =>
    if per ≤ k + 1 then [setCompany r name] else setCompany r name :: tagTake name per rs (k + 1)

/-- `_fetch_people_for_company`: fallback search links are skipped, the
company name comes from the `company` field or else the parsed title, names
shorter than 2 characters are skipped, and up to `per_company` tagged
results of one backend query are kept. -/
def _fetch_people_for_company (web : String → Nat → List SearchResult)
    (agency : SearchResult) (icp : String) (per_company : Nat) : List SearchResult :=
  if strContains agency.url "linkedin.com/search/results/" then []
  else
    let company_name := pyOr agency.company (parse_agency_name agency.title)
    if company_name = "" ∨ company_name.length < 2 then []
    else
      tagTake company_name per_company
        (web ("site:linkedin.com/in " ++ _q company_name ++ " " ++ _q icp) (per_company * 2)) 0

/-- The eligible fan-out targets:
`[a for a in agencies[:6] if "linkedin.com/search/results/" not in a.url]`. -/
def eligible_targets (agencies : List SearchResult) : List SearchResult :=
  (agencies.take 6).filter (fun a => !(strContains a.url "linkedin.com/search/results/"))

/-- `find_people_at_companies`: bounded fan-out over the eligible targets.
`fetch a = none` models company `a`'s future raising (the exception is
caught at `future.result()` and contributes nothing); `order` is the
`as_completed` completion order of the futures.  With zero targets,
`ThreadPoolExecutor(max_workers=min(0, 6))` raises `ValueError` (Python
stdlib behaviour), modelled by the `Except.error` branch. -/
def find_people_at_companies (fetch : SearchResult → Option (List SearchResult))
    (order : List SearchResult) (agencies : List SearchResult) :
    Except String (List SearchResult) :=
  let targets := eligible_targets agencies
  if targets.length = 0 then Except.error "ValueError: max_workers must be greater than 0"
  else Except.ok (dedupe_by_url (order.flatMap (fun a => (fetch a).getD [])))

/-- `run_search_logic` of services.py, with the intent parser on its
heuristic path (no classifier configured — the spec treats the external
LLM as an outside collaborator).  The two branch searches join before the
fan-out begins, so their 2-worker pool is modelled by plain sequencing; the
fan-out runs with submission order as completion order and its futures
never raise in this pure model, so the only propagating error is the
executor-constructor `ValueError`. -/
def run_search_logic (web : String → Nat → List SearchResult) (query : String) :
    Except String SearchResponse :=
  let parsed := _regex_parse query
  let do_agencies := parsed.search_type = "both" ∨ parsed.search_type = "agencies"
  let do_people := parsed.search_type = "both" ∨ parsed.search_type = "people"
  let agencies := if do_agencies then
      find_agencies_srv web parsed.icp parsed.industry parsed.region 8 parsed.extra_keywords
    else []
  let people := if do_people then
      find_people_srv web parsed.icp parsed.industry parsed.region 8 parsed.extra_keywords
    else []
  if agencies = [] then Except.ok ⟨agencies, people, [], parsed⟩
  else
    match find_people_at_companies
        (fun a => some (_fetch_people_for_company web a parsed.icp 3))
        (eligible_targets agencies) agencies with
    | Except.ok cp => Except.ok ⟨agencies, people, cp, parsed⟩
    | Except.error e => Except.error e

/-- An eligible fan-out company. -/
def goodCo : SearchResult := ⟨"Acme | LinkedIn", "https://linkedin.com/company/acme", "", "Acme"⟩

/-- A second eligible fan-out company, whose sub-search will raise. -/
def badCo : SearchResult := ⟨"Beta | LinkedIn", "https://linkedin.com/company/beta", "", "Beta"⟩

/-- A person found by a company sub-search. -/
def fanPerson : SearchResult := ⟨"Jane", "https://linkedin.com/in/jane", "", "Acme"⟩

/-- A fan-out fetch in which exactly `badCo`'s sub-search raises. -/
def fetchCE : SearchResult → Option (List SearchResult) :=
  fun a => if a = badCo then none else some [fanPerson]

/-- A generic fallback search-page result, as produced by the placeholder
backend of `search_web`. -/
def fallbackCo : SearchResult :=
  ⟨"LinkedIn Companies: x", "https://www.linkedin.com/search/results/companies/?keywords=x",
   "Browse matching companies on LinkedIn", ""⟩

/-! ## Theorems: dedup (claims C4, C9) -/

theorem dedupeAux_sublist (l : List SearchResult) : ∀ seen, (dedupeAux l seen).Sublist l := by
  induction l with
  | nil => intro seen; simp [dedupeAux]
  | cons r rs ih =>
    intro seen
    simp only [dedupeAux]
    split
    · exact List.Sublist.cons r (ih seen)
    · exact List.Sublist.cons₂ r (ih _)

theorem mem_dedupeAux_not_seen {r : SearchResult} :
    ∀ {l : List SearchResult} {seen : List String},
      r ∈ dedupeAux l seen → canonKey r.url ∉ seen := by
  intro l
  induction l with
  | nil => intro seen h; simp [dedupeAux] at h
  | cons a rs ih =>
    intro seen h
    simp only [dedupeAux] at h
    split at h
    · exact ih h
    · rcases List.mem_cons.mp h with h1 | h2
      · subst h1; assumption
      · intro hc
        exact (ih h2) (List.mem_cons_of_mem _ hc)

theorem dedupeAux_keys_nodup (l : List SearchResult) :
    ∀ seen, ((dedupeAux l seen).map (fun r => canonKey r.url)).Nodup := by
  induction l with
  | nil => intro seen; simp [dedupeAux]
  | cons a rs ih =>
    intro seen
    simp only [dedupeAux]
    split
    · exact ih seen
    · simp only [List.map_cons, List.nodup_cons]
      refine ⟨?_, ih _⟩
      intro hc
      rcases List.mem_map.mp hc with ⟨r, hr, hkey⟩
      have := mem_dedupeAux_not_seen hr
      rw [hkey] at this
      exact this (List.mem_cons_self _ _)

theorem dedupeAux_first_kept (a : SearchResult) :
    ∀ (l1 l2 : List SearchResult) (seen : List String),
      (∀ b ∈ l1, canonKey b.url ≠ canonKey a.url) →
      canonKey a.url ∉ seen →
      a ∈ dedupeAux (l1 ++ a :: l2) seen := by
  intro l1
  induction l1 with
  | nil =>
    intro l2 seen _ hseen
    simp only [List.nil_append, dedupeAux]
    split
    · exact absurd (by assumption) hseen
    · exact List.mem_cons_self _ _
  | cons b l1' ih =>
    intro l2 seen hne hseen
    simp only [List.cons_append, dedupeAux]
    split
    · exact ih l2 seen (fun x hx => hne x (List.mem_cons_of_mem _ hx)) hseen
    · refine List.mem_cons_of_mem _ (ih l2 _ (fun x hx => hne x (List.mem_cons_of_mem _ hx)) ?_)
      intro hc
      rcases List.mem_cons.mp hc with h1 | h2
      · exact hne b (List.mem_cons_self _ _) h1.symm
      · exact hseen h2

theorem dedupeAux_eq_self :
    ∀ (l : List SearchResult) (seen : List String),
      ((l.map (fun r => canonKey r.url)).Nodup) →
      (∀ r ∈ l, canonKey r.url ∉ seen) →
      dedupeAux l seen = l := by
  intro l
  induction l with
  | nil => intro seen _ _; simp [dedupeAux]
  | cons a rs ih =>
    intro seen hnd hseen
    simp only [List.map_cons, List.nodup_cons] at hnd
    simp only [dedupeAux]
    split
    · exact absurd (by assumption) (hseen a (List.mem_cons_self _ _))
    · rw [ih _ hnd.2]
      intro r hr
      intro hc
      rcases List.mem_cons.mp hc with h1 | h2
      · exact hnd.1 (h1 ▸ List.mem_map.mpr ⟨r, hr, rfl⟩)
      · exact hseen r (List.mem_cons_of_mem _ hr) h2

theorem stripQueryL_of_not_mem {cs : List Char} (h : '?' ∉ cs) :
    stripQueryL cs = cs := by
  induction cs with
  | nil => rfl
  | cons c cs ih =>
    have hc : ¬ c = '?' := fun hh => h (List.mem_cons.mpr (Or.inl hh.symm))
    have h2 : '?' ∉ cs := fun hh => h (List.mem_cons_of_mem _ hh)
    simp [stripQueryL, hc, ih h2]

theorem stripQueryL_append_of_not_mem {cs : List Char} (ds : List Char) (h : '?' ∉ cs) :
    stripQueryL (cs ++ ds) = cs ++ stripQueryL ds := by
  induction cs with
  | nil => rfl
  | cons c cs ih =>
    have hc : ¬ c = '?' := fun hh => h (List.mem_cons.mpr (Or.inl hh.symm))
    have h2 : '?' ∉ cs := fun hh => h (List.mem_cons_of_mem _ hh)
    simp [stripQueryL, hc, ih h2]

theorem stripQueryL_append_of_mem {cs : List Char} (ds : List Char) (h : '?' ∈ cs) :
    stripQueryL (cs ++ ds) = stripQueryL cs := by
  induction cs with
  | nil => simp at h
  | cons c cs ih =>
    by_cases hc : c = '?'
    · simp [stripQueryL, hc]
    · have h2 : '?' ∈ cs := by
        rcases List.mem_cons.mp h with h1 | h1
        · exact absurd h1.symm hc
        · exact h1
      simp [stripQueryL, hc, ih h2]

theorem rstripSlashL_append_slash (cs : List Char) :
    rstripSlashL (cs ++ ['/']) = rstripSlashL cs := by
  simp [rstripSlashL, List.reverse_append, List.dropWhile]

/-- C4: `dedupe_by_url` is a single stable left-to-right pass keyed by the
URL with query string removed and trailing slash stripped: the output is a
sublist of the input (order preserved, no foreign entries), output keys are
pairwise distinct (so two entries differing only in query string or trailing
slash collapse), the first entry with a given key is always kept, and two
URLs differing only in a query string or a trailing slash have equal keys. -/
theorem C4_dedupe_first_seen (l l1 l2 : List SearchResult) (a : SearchResult) :
    (dedupe_by_url l).Sublist l
  ∧ ((dedupe_by_url l).map (fun r => canonKey r.url)).Nodup
  ∧ (l = l1 ++ a :: l2 → (∀ b ∈ l1, canonKey b.url ≠ canonKey a.url) →
       a ∈ dedupe_by_url l)
  ∧ (∀ u q : String, '?' ∉ u.data → canonKey (u ++ "?" ++ q) = canonKey u)
  ∧ (∀ u : String, canonKey (u ++ "/") = canonKey u) := by
  refine ⟨dedupeAux_sublist l [], dedupeAux_keys_nodup l [], ?_, ?_, ?_⟩
  · intro hl hne
    subst hl
    exact dedupeAux_first_kept a l1 l2 [] hne (by simp)
  · intro u q hq
    have hdata : (u ++ "?" ++ q).data = u.data ++ ('?' :: q.data) := by
      simp [String.data_append]
    simp only [canonKey, hdata]
    rw [show u.data ++ ('?' :: q.data) = u.data ++ ('?' :: q.data) from rfl,
        stripQueryL_append_of_not_mem _ hq]
    simp [stripQueryL, stripQueryL_of_not_mem hq]
  · intro u
    have hdata : (u ++ "/").data = u.data ++ ['/'] := by simp [String.data_append]
    simp only [canonKey, hdata]
    by_cases hq : '?' ∈ u.data
    · rw [stripQueryL_append_of_mem _ hq]
    · rw [stripQueryL_append_of_not_mem _ hq, stripQueryL_of_not_mem hq]
      have : stripQueryL ['/'] = ['/'] := rfl
      rw [this, rstripSlashL_append_slash]

/-- C4 witness: concrete instance at the two-element list from the repo's
test, exercising the first-seen and equal-key hypotheses. -/
theorem C4_dedupe_first_seen_witness :
    (⟨"A", "https://linkedin.com/in/x?trk=abc", "", ""⟩ : SearchResult) ∈
      dedupe_by_url [⟨"A", "https://linkedin.com/in/x?trk=abc", "", ""⟩,
                     ⟨"A2", "https://linkedin.com/in/x", "", ""⟩]
  ∧ canonKey ("https://linkedin.com/in/x" ++ "?" ++ "trk=abc") =
      canonKey "https://linkedin.com/in/x" := by
  constructor
  · exact (C4_dedupe_first_seen
      [⟨"A", "https://linkedin.com/in/x?trk=abc", "", ""⟩,
       ⟨"A2", "https://linkedin.com/in/x", "", ""⟩] []
      [⟨"A2", "https://linkedin.com/in/x", "", ""⟩]
      ⟨"A", "https://linkedin.com/in/x?trk=abc", "", ""⟩).2.2.1 rfl (by simp)
  · exact (C4_dedupe_first_seen [] [] [] ⟨"", "", "", ""⟩).2.2.2.1
      "https://linkedin.com/in/x" "trk=abc" (by decide)

/-- C9: `dedupe_by_url` is idempotent — re-running it on its own output is a
no-op. -/
theorem C9_dedupe_idempotent (l : List SearchResult) :
    dedupe_by_url (dedupe_by_url l) = dedupe_by_url l :=
  dedupeAux_eq_self _ [] (dedupeAux_keys_nodup l []) (by simp)

/-! ## Theorems: intent parser (claims C3, C7) -/

theorem pyOr_ne_of_right {a b : String} (hb : b ≠ "") : pyOr a b ≠ "" := by
  unfold pyOr
  split
  · exact hb
  · assumption

theorem firstMatch_eq_none {low : String} :
    ∀ {table : List (String × List String)},
      (∀ p ∈ table, ∀ s ∈ p.2, strContains low s = false) →
      firstMatch table low = none := by
  intro table
  induction table with
  | nil => intro _; rfl
  | cons p rest ih =>
    intro h
    obtain ⟨canon, syns⟩ := p
    have hc : (syns.any (fun s => strContains low s)) = false := by
      rw [List.any_eq_false]
      intro s hs
      simp [h (canon, syns) (List.mem_cons_self _ _) s hs]
    simp only [firstMatch, hc, Bool.false_eq_true, if_false]
    exact ih (fun q hq => h q (List.mem_cons_of_mem _ hq))

/-- C3 counterexample: on the empty prompt the services.py heuristic parser
falls back to the raw prompt for `icp`, producing the empty string — so the
claim that `icp` is non-empty for every input prompt, including the empty
string, is false. -/
theorem C3_counterexample : (_regex_parse "").icp = "" := rfl

/-- C3 (amended): after heuristic parsing, `industry` and `region` are never
empty (defaults `"technology"` and `"United States"` fill gaps), a prompt
with no industry match yields `industry="technology"` and one with no region
match yields `region="United States"`; `icp` is non-empty for every
non-empty prompt in the services.py variant (it falls back to the raw
prompt, hence is empty exactly on the empty keyword-free prompt), and is
non-empty unconditionally in the app.py variant (which falls back to
`"technology"`). -/
theorem C3_parse_defaults (prompt : String) :
    (_regex_parse prompt).industry ≠ ""
  ∧ (_regex_parse prompt).region ≠ ""
  ∧ (prompt ≠ "" → (_regex_parse prompt).icp ≠ "")
  ∧ (parse_user_prompt_app prompt).icp ≠ ""
  ∧ ((∀ p ∈ INDUSTRY_KW, ∀ s ∈ p.2, strContains (pyLower prompt) s = false) →
       regexIndustry (pyLower prompt) = none →
       (_regex_parse prompt).industry = "technology")
  ∧ ((∀ p ∈ REGION_KW, ∀ s ∈ p.2, strContains (pyLower prompt) s = false) →
       (_regex_parse prompt).region = "United States") := by
  refine ⟨?_, ?_, ?_, ?_, ?_, ?_⟩
  · exact pyOr_ne_of_right (by decide)
  · exact pyOr_ne_of_right (by decide)
  · intro h; exact pyOr_ne_of_right h
  · exact pyOr_ne_of_right (by decide)
  · intro hsyn hre
    have h1 : industryOf (pyLower prompt) = "" := by
      unfold industryOf
      rw [firstMatch_eq_none hsyn, hre]
    show pyOr (industryOf (pyLower prompt)) "technology" = "technology"
    rw [h1]
    rfl
  · intro hsyn
    have h1 : regionOf (pyLower prompt) = "" := by
      unfold regionOf
      rw [firstMatch_eq_none hsyn]
    show pyOr (regionOf (pyLower prompt)) "United States" = "United States"
    rw [h1]
    rfl

/-- C3 witness: concrete role/industry/region-free prompt `"hello"`. -/
theorem C3_parse_defaults_witness :
    (_regex_parse "hello").icp ≠ ""
  ∧ (_regex_parse "hello").industry = "technology"
  ∧ (_regex_parse "hello").region = "United States" :=
  ⟨(C3_parse_defaults "hello").2.2.1 (by decide),
   (C3_parse_defaults "hello").2.2.2.2.1 (by decide) (by rfl),
   (C3_parse_defaults "hello").2.2.2.2.2 (by decide)⟩

/-- C7: search-type detection tokenizes the lower-cased prompt on
whitespace and tests the token set against the two disjoint keyword sets:
only agency words present gives `"agencies"`, only people words gives
`"people"`, both or neither gives `"both"`. -/
theorem C7_search_type_detection (prompt : String) :
    (∀ w ∈ agency_words, w ∉ people_words)
  ∧ ((∃ w ∈ agency_words, w ∈ tokensOf prompt) →
     (¬ ∃ w ∈ people_words, w ∈ tokensOf prompt) →
       (_regex_parse prompt).search_type = "agencies")
  ∧ ((∃ w ∈ people_words, w ∈ tokensOf prompt) →
     (¬ ∃ w ∈ agency_words, w ∈ tokensOf prompt) →
       (_regex_parse prompt).search_type = "people")
  ∧ (((∃ w ∈ agency_words, w ∈ tokensOf prompt) ↔
      (∃ w ∈ people_words, w ∈ tokensOf prompt)) →
       (_regex_parse prompt).search_type = "both") := by
  have hA : (agency_words.any (fun w => decide (w ∈ pySplitWs (pyLower prompt))) = true)
      ↔ (∃ w ∈ agency_words, w ∈ tokensOf prompt) := by
    simp [tokensOf, List.any_eq_true]
  have hP : (people_words.any (fun w => decide (w ∈ pySplitWs (pyLower prompt))) = true)
      ↔ (∃ w ∈ people_words, w ∈ tokensOf prompt) := by
    simp [tokensOf, List.any_eq_true]
  refine ⟨by decide, ?_, ?_, ?_⟩
  · intro h1 h2
    have e1 := hA.mpr h1
    have e2 : people_words.any (fun w => decide (w ∈ pySplitWs (pyLower prompt))) = false :=
      Bool.eq_false_iff.mpr (fun hh => h2 (hP.mp hh))
    show searchTypeOf (pyLower prompt) = "agencies"
    simp [searchTypeOf, e1, e2]
  · intro h1 h2
    have e1 := hP.mpr h1
    have e2 : agency_words.any (fun w => decide (w ∈ pySplitWs (pyLower prompt))) = false :=
      Bool.eq_false_iff.mpr (fun hh => h2 (hA.mp hh))
    show searchTypeOf (pyLower prompt) = "people"
    simp [searchTypeOf, e1, e2]
  · intro h1
    show searchTypeOf (pyLower prompt) = "both"
    rcases Bool.eq_false_or_eq_true
        (agency_words.any (fun w => decide (w ∈ pySplitWs (pyLower prompt)))) with ea | ea
    · have ep : people_words.any (fun w => decide (w ∈ pySplitWs (pyLower prompt))) = true :=
        hP.mpr (h1.mp (hA.mp ea))
      simp [searchTypeOf, ea, ep]
    · have ep : people_words.any (fun w => decide (w ∈ pySplitWs (pyLower prompt))) = false :=
        Bool.eq_false_iff.mpr (fun hh => by
          have := hA.mpr (h1.mpr (hP.mp hh))
          rw [ea] at this
          exact Bool.false_ne_true this)
      simp [searchTypeOf, ea, ep]

/-- C7 witness: three concrete prompts exercising the three outcomes. -/
theorem C7_search_type_detection_witness :
    (_regex_parse "tech agencies").search_type = "agencies"
  ∧ (_regex_parse "founders who").search_type = "people"
  ∧ (_regex_parse "hello world").search_type = "both" :=
  ⟨(C7_search_type_detection "tech agencies").2.1 (by decide) (by decide),
   (C7_search_type_detection "founders who").2.2.1 (by decide) (by decide),
   (C7_search_type_detection "hello world").2.2.2 (by decide)⟩

/-! ## Theorems: URL normalization (claim C10) -/

/-- C10 counterexample: a URL containing the `duckduckgo.com/l/` redirector
pattern but carrying none of the parameters `u`, `uddg`, `r` is returned
completely unchanged — it is not rewritten, so the claim that every URL
routed through one of the two redirector patterns is rewritten by extracting
a destination parameter is false. -/
theorem C10_counterexample :
    strContains "https://duckduckgo.com/l/" "duckduckgo.com/l/" = true
  ∧ _clean_url "https://duckduckgo.com/l/" = "https://duckduckgo.com/l/" := ⟨rfl, rfl⟩

/-- C10 (amended): `_clean_url` rewrites a URL containing one of the two
redirector patterns by extracting and URL-decoding the first present query
parameter in the fixed priority order `u`, `uddg`, `r`, provided at least
one of the three is present; a pattern-matching URL with none of the three
parameters, and every URL without the patterns, is returned unchanged. -/
theorem C10_clean_url_cases (raw v : String) :
    ((strContains raw "bing.com/aclick" = false ∧
      strContains raw "duckduckgo.com/l/" = false) →
       _clean_url raw = raw)
  ∧ ((strContains raw "bing.com/aclick" = true ∨
      strContains raw "duckduckgo.com/l/" = true) →
     qsLookup (urlQuery raw) "u" = none →
     qsLookup (urlQuery raw) "uddg" = none →
     qsLookup (urlQuery raw) "r" = none →
       _clean_url raw = raw)
  ∧ ((strContains raw "bing.com/aclick" = true ∨
      strContains raw "duckduckgo.com/l/" = true) →
     qsLookup (urlQuery raw) "u" = some v →
       _clean_url raw = pyUnquote v)
  ∧ ((strContains raw "bing.com/aclick" = true ∨
      strContains raw "duckduckgo.com/l/" = true) →
     qsLookup (urlQuery raw) "u" = none →
     qsLookup (urlQuery raw) "uddg" = some v →
       _clean_url raw = pyUnquote v)
  ∧ ((strContains raw "bing.com/aclick" = true ∨
      strContains raw "duckduckgo.com/l/" = true) →
     qsLookup (urlQuery raw) "u" = none →
     qsLookup (urlQuery raw) "uddg" = none →
     qsLookup (urlQuery raw) "r" = some v →
       _clean_url raw = pyUnquote v) := by
  refine ⟨?_, ?_, ?_, ?_, ?_⟩
  · intro h
    simp [_clean_url, h.1, h.2]
  · intro hg hu hud hr
    rcases hg with h | h <;> simp [_clean_url, h, hu, hud, hr]
  · intro hg hu
    rcases hg with h | h <;> simp [_clean_url, h, hu]
  · intro hg hu hud
    rcases hg with h | h <;> simp [_clean_url, h, hu, hud]
  · intro hg hu hud hr
    rcases hg with h | h <;> simp [_clean_url, h, hu, hud, hr]

/-- C10 witness: a concrete DuckDuckGo redirect URL carrying `uddg` and `r`
is rewritten to the decoded `uddg` destination. -/
theorem C10_clean_url_cases_witness :
    _clean_url "https://duckduckgo.com/l/?uddg=https%3A%2F%2Fexample.com%2Fx&r=zz" =
      "https://example.com/x" :=
  ((C10_clean_url_cases "https://duckduckgo.com/l/?uddg=https%3A%2F%2Fexample.com%2Fx&r=zz"
      "https://example.com/x").2.2.2.1 (Or.inr (by decide)) (by decide) (by decide)).trans
    (by decide)

/-! ## Theorems: search provider adapter (claim C5) -/

theorem backendStep_eq_nil {resp : Option (List RawHit)}
    (h : ∀ r ∈ resp.getD [], _clean_url (pyStrip r.url) = "") :
    backendStep resp = [] := by
  cases resp with
  | none => rfl
  | some rs =>
    simp only [backendStep, providerOutput]
    rw [List.filterMap_eq_nil_iff]
    intro r hr
    have hu := h r (by simpa using hr)
    simp [hu]

/-- C5: `search_web` never returns an empty list; when every real backend
fails or yields nothing usable (no record with a non-empty cleaned URL),
the terminal placeholder branch returns exactly two static results — a
LinkedIn company-search link and a LinkedIn people-search link — built from
the first four terms of the query after stripping `site:` operators and
quotes. -/
theorem C5_search_web_nonempty (brave ddg : Option (List RawHit)) (query : String)
    (mr : Nat) :
    search_web brave ddg query mr ≠ []
  ∧ ((∀ r ∈ brave.getD [], _clean_url (pyStrip r.url) = "") →
     (∀ r ∈ ddg.getD [], _clean_url (pyStrip r.url) = "") →
     search_web brave ddg query mr =
       [⟨"LinkedIn Companies: " ++ pyJoin " " (placeholderKeywords query),
         "https://www.linkedin.com/search/results/companies/?keywords=" ++
           pyJoin "+" (placeholderKeywords query),
         "Browse matching companies on LinkedIn", ""⟩,
        ⟨"LinkedIn People: " ++ pyJoin " " (placeholderKeywords query),
         "https://www.linkedin.com/search/results/people/?keywords=" ++
           pyJoin "+" (placeholderKeywords query),
         "Browse matching profiles on LinkedIn", ""⟩]) := by
  constructor
  · simp only [search_web]
    split
    · assumption
    · split
      · assumption
      · simp [placeholderResults]
  · intro h1 h2
    have hb : backendStep brave = [] := backendStep_eq_nil h1
    have hd : backendStep ddg = [] := backendStep_eq_nil h2
    simp [search_web, hb, hd, placeholderResults]

/-- C5 witness: both real backends fail (`none`) on a concrete query with a
`site:` operator, quoted terms, and five remaining words; the result is the
two placeholder links built from the first four terms. -/
theorem C5_search_web_nonempty_witness :
    search_web none none "site:linkedin.com/in \"ceo\" fintech \"New York\" extra" 12 =
      [⟨"LinkedIn Companies: ceo fintech New York",
        "https://www.linkedin.com/search/results/companies/?keywords=ceo+fintech+New+York",
        "Browse matching companies on LinkedIn", ""⟩,
       ⟨"LinkedIn People: ceo fintech New York",
        "https://www.linkedin.com/search/results/people/?keywords=ceo+fintech+New+York",
        "Browse matching profiles on LinkedIn", ""⟩] :=
  ((C5_search_web_nonempty none none
      "site:linkedin.com/in \"ceo\" fintech \"New York\" extra" 12).2
    (by simp) (by simp)).trans (by decide)

/-! ## Theorems: tiered query planner (claims C1, C2) -/

theorem tierLoop_spec (web : String → Nat → List SearchResult)
    (sel : List SearchResult → List SearchResult) (n : Nat) :
    ∀ (qs : List String) (hits : List SearchResult),
      ((tierLoop web sel n qs hits).2 <+: qs)
    ∧ (tierLoop web sel n qs hits).1 = hits ++ tierHits web sel n (tierLoop web sel n qs hits).2
    ∧ (∀ k, k < (tierLoop web sel n qs hits).2.length →
         (hits ++ tierHits web sel n ((tierLoop web sel n qs hits).2.take k)).length < n)
    ∧ ((tierLoop web sel n qs hits).2.length < qs.length →
         n ≤ (hits ++ tierHits web sel n (tierLoop web sel n qs hits).2).length) := by
  intro qs
  induction qs with
  | nil =>
    intro hits
    refine ⟨⟨[], rfl⟩, by simp [tierLoop, tierHits], ?_, ?_⟩
    · intro k hk
      simp [tierLoop] at hk
    · intro hlen
      simp [tierLoop] at hlen
  | cons q rest ih =>
    intro hits
    by_cases hcap : n ≤ hits.length
    · have hT0 : tierLoop web sel n (q :: rest) hits = (hits, []) := by
        simp [tierLoop, hcap]
      refine ⟨?_, ?_, ?_, ?_⟩
      · rw [hT0]
        exact ⟨q :: rest, rfl⟩
      · rw [hT0]
        simp [tierHits]
      · intro k hk
        rw [hT0] at hk
        simp at hk
      · intro _
        rw [hT0]
        simpa [tierHits] using hcap
    · obtain ⟨hpre, hhits, hlt, hstop⟩ := ih (hits ++ sel (web q (n * 2)))
      have hT : tierLoop web sel n (q :: rest) hits =
          ((tierLoop web sel n rest (hits ++ sel (web q (n * 2)))).1,
           q :: (tierLoop web sel n rest (hits ++ sel (web q (n * 2)))).2) := by
        simp [tierLoop, hcap]
      refine ⟨?_, ?_, ?_, ?_⟩
      · rw [hT]
        exact List.cons_prefix_cons.mpr ⟨rfl, hpre⟩
      · rw [hT]
        simp only [tierHits, List.flatMap_cons] at *
        rw [hhits, List.append_assoc]
      · intro k hk
        rw [hT] at hk ⊢
        cases k with
        | zero =>
          simpa [tierHits] using Nat.lt_of_not_le hcap
        | succ k =>
          simp only [List.length_cons, Nat.succ_lt_succ_iff] at hk
          have := hlt k hk
          simpa [tierHits, List.flatMap_cons, List.append_assoc] using this
      · intro hlen
        rw [hT] at hlen ⊢
        simp only [List.length_cons, Nat.succ_lt_succ_iff] at hlen
        have := hstop hlen
        simpa [tierHits, List.flatMap_cons, List.append_assoc] using this

/-- C1 counterexample: with a backend whose very first tier already yields
one qualifying, classified match, the strict app.py `find_agencies` (cap 8)
still issues all three tier queries — it does not stop at the first tier
that produced a qualifying match. -/
theorem C1_counterexample :
    (classifyAgencyHits
      (ceWebOne ((appAgencyTiers "ceo" "saas" "Texas").headD "") (8 * 2))).length = 1
  ∧ (find_agencies_app_queries ceWebOne "ceo" "saas" "Texas" 8).length = 3 :=
  ⟨rfl, rfl⟩

/-- C1 (amended): the strict (non-AI-keyword, app.py) `find_agencies`
issues its documented query tiers in order and stops issuing further tiers
exactly when the qualifying, classified matches accumulated so far have
reached the cap `n` — not at the first tier producing a match — and returns
the deduplicated accumulated list truncated to the cap. -/
theorem C1_tier_cap_policy (web : String → Nat → List SearchResult)
    (icp industry region : String) (n : Nat) :
    find_agencies_app_queries web icp industry region n <+: appAgencyTiers icp industry region
  ∧ (∀ k, k < (find_agencies_app_queries web icp industry region n).length →
      (tierHits web classifyAgencyHits n
        ((find_agencies_app_queries web icp industry region n).take k)).length < n)
  ∧ ((find_agencies_app_queries web icp industry region n).length <
        (appAgencyTiers icp industry region).length →
      n ≤ (tierHits web classifyAgencyHits n
        (find_agencies_app_queries web icp industry region n)).length)
  ∧ find_agencies_app web icp industry region n =
      (dedupe_by_url (tierHits web classifyAgencyHits n
        (find_agencies_app_queries web icp industry region n))).take n := by
  obtain ⟨hpre, hhits, hlt, hstop⟩ :=
    tierLoop_spec web classifyAgencyHits n (appAgencyTiers icp industry region) []
  refine ⟨hpre, ?_, ?_, ?_⟩
  · intro k hk
    simpa using hlt k hk
  · intro h
    simpa using hstop h
  · show (dedupe_by_url (tierLoop web classifyAgencyHits n
      (appAgencyTiers icp industry region) []).1).take n = _
    rw [hhits]
    simp [find_agencies_app_queries]

/-- C1 witness: the cap-policy hypotheses discharged concretely — with cap
8 the empty prefix of issued tiers holds fewer than 8 hits; with cap 1 the
planner stops early precisely because the cap is reached. -/
theorem C1_tier_cap_policy_witness :
    (tierHits ceWebOne classifyAgencyHits 8
      ((find_agencies_app_queries ceWebOne "ceo" "saas" "Texas" 8).take 0)).length < 8
  ∧ 1 ≤ (tierHits ceWebOne classifyAgencyHits 1
      (find_agencies_app_queries ceWebOne "ceo" "saas" "Texas" 1)).length :=
  ⟨(C1_tier_cap_policy ceWebOne "ceo" "saas" "Texas" 8).2.1 0 (by decide),
   (C1_tier_cap_policy ceWebOne "ceo" "saas" "Texas" 1).2.2.1 (by decide)⟩

theorem mem_planner_output {r : SearchResult} {web : String → Nat → List SearchResult}
    {sel : List SearchResult → List SearchResult} {n : Nat} {tiers : List String}
    (h : r ∈ (dedupe_by_url (tierLoop web sel n tiers []).1).take n) :
    ∃ q, r ∈ sel (web q (n * 2)) := by
  have h1 : r ∈ dedupe_by_url (tierLoop web sel n tiers []).1 := List.take_subset _ _ h
  have h2 : r ∈ (tierLoop web sel n tiers []).1 :=
    (dedupeAux_sublist _ []).subset h1
  obtain ⟨_, hhits, _, _⟩ := tierLoop_spec web sel n tiers []
  rw [hhits] at h2
  simp only [List.nil_append, tierHits] at h2
  obtain ⟨q, _, hq⟩ := List.mem_flatMap.mp h2
  exact ⟨q, hq⟩

/-- C2 counterexample: the cited services.py `find_people` appends backend
results with no classifier filtering — a backend hit whose URL is not a
LinkedIn profile is returned as-is. -/
theorem C2_counterexample :
    badHit ∈ find_people_srv webBadOnly "ceo" "saas" "Texas" 8 []
  ∧ is_linkedin_profile badHit.url = false :=
  ⟨by decide, rfl⟩

/-- C2 (amended): the app.py planner variants do filter by the
kind-appropriate classifier — every `SearchResult` returned by app.py
`find_people` has a URL classified as a LinkedIn profile and every result
returned by app.py `find_agencies` has a URL classified as a LinkedIn
company page; the cited services.py planners append every backend result
unfiltered, `find_agencies` merely attributing the company name (from the
URL) on those results that are classified company hits. -/
theorem C2_classifier_filtering (web : String → Nat → List SearchResult)
    (icp industry region : String) (n : Nat) (extra : List String) :
    (∀ r ∈ find_people_app web icp industry region n, is_linkedin_profile r.url = true)
  ∧ (∀ r ∈ find_agencies_app web icp industry region n, is_linkedin_company r.url = true)
  ∧ (∀ r ∈ find_agencies_srv web icp industry region n extra,
       is_linkedin_company r.url = true → r.company = _company_from_url r.url) := by
  refine ⟨?_, ?_, ?_⟩
  · intro r hr
    obtain ⟨q, hq⟩ := mem_planner_output hr
    exact (List.mem_filter.mp hq).2
  · intro r hr
    obtain ⟨q, hq⟩ := mem_planner_output hr
    obtain ⟨x, _, hx⟩ := List.mem_filterMap.mp hq
    by_cases hc : is_linkedin_company x.url = true
    · rw [if_pos hc] at hx
      obtain rfl := Option.some.inj hx
      exact hc
    · rw [if_neg hc] at hx
      exact absurd hx (Option.noConfusion)
  · intro r hr hcls
    obtain ⟨q, hq⟩ := mem_planner_output hr
    obtain ⟨x, _, hx⟩ := List.mem_map.mp hq
    by_cases hc : is_linkedin_company x.url = true
    · rw [if_pos hc] at hx
      subst hx
      rfl
    · rw [if_neg hc] at hx
      subst hx
      exact absurd hcls hc

/-- C2 witness: concrete members of the three planners' outputs. -/
theorem C2_classifier_filtering_witness :
    is_linkedin_profile profHit.url = true
  ∧ is_linkedin_company ceAgencyTagged.url = true
  ∧ ceAgencyTagged.company = _company_from_url ceAgencyTagged.url :=
  ⟨(C2_classifier_filtering webProf "a" "b" "c" 8 []).1 profHit (by decide),
   (C2_classifier_filtering ceWebOne "a" "b" "c" 8 []).2.1 ceAgencyTagged (by decide),
   (C2_classifier_filtering ceWebOne "a" "b" "c" 8 []).2.2 ceAgencyTagged (by decide) (by rfl)⟩

/-! ## Theorems: fan-out and orchestrator (claims C6, C8) -/

theorem flatMapCongrMem {α β : Type} {l : List α} {f g : α → List β}
    (h : ∀ a ∈ l, f a = g a) : l.flatMap f = l.flatMap g := by
  induction l with
  | nil => rfl
  | cons x xs ih =>
    simp only [List.flatMap_cons, h x (List.mem_cons_self _ _)]
    rw [ih (fun a ha => h a (List.mem_cons_of_mem _ ha))]

/-- C6: in the company→people fan-out at most 6 companies are ever
searched; companies whose URL is a generic fallback search-page link are
excluded from the targets; one company's sub-search raising is treated as
zero results for that company and does not change what the other
companies' sub-searches contribute; and the merged output is deduplicated
by canonical URL. -/
theorem C6_fanout_isolation (fetch : SearchResult → Option (List SearchResult))
    (order agencies : List SearchResult) (a0 : SearchResult)
    (hperm : order.Perm (eligible_targets agencies)) :
    order.length ≤ 6
  ∧ (∀ a ∈ eligible_targets agencies,
       strContains a.url "linkedin.com/search/results/" = false ∧ a ∈ agencies.take 6)
  ∧ (eligible_targets agencies ≠ [] →
       find_people_at_companies fetch order agencies =
         Except.ok (dedupe_by_url (order.flatMap (fun a => (fetch a).getD []))))
  ∧ (∀ out, find_people_at_companies fetch order agencies = Except.ok out →
       (out.map (fun r => canonKey r.url)).Nodup)
  ∧ (fetch a0 = none →
       find_people_at_companies (fun x => if x = a0 then some [] else fetch x) order agencies =
         find_people_at_companies fetch order agencies) := by
  refine ⟨?_, ?_, ?_, ?_, ?_⟩
  · rw [hperm.length_eq]
    calc (eligible_targets agencies).length
        ≤ (agencies.take 6).length := List.length_filter_le _ _
      _ ≤ 6 := by
          rw [List.length_take]
          exact Nat.min_le_left _ _
  · intro a ha
    have h1 := List.mem_filter.mp ha
    refine ⟨?_, h1.1⟩
    have := h1.2
    simpa using this
  · intro hne
    have hlen : ¬ (eligible_targets agencies).length = 0 := by
      intro h0
      exact hne (List.length_eq_zero.mp h0)
    simp [find_people_at_companies, hlen]
  · intro out hout
    by_cases h0 : (eligible_targets agencies).length = 0
    · simp [find_people_at_companies, h0] at hout
    · simp only [find_people_at_companies, if_neg h0] at hout
      obtain rfl := (Except.ok.inj hout).symm
      exact dedupeAux_keys_nodup _ []
  · intro h0
    have hfm : order.flatMap (fun x => ((if x = a0 then some [] else fetch x).getD [])) =
        order.flatMap (fun a => (fetch a).getD []) := by
      apply flatMapCongrMem
      intro a _
      by_cases ha : a = a0
      · subst ha
        simp [h0]
      · simp [ha]
    simp only [find_people_at_companies, hfm]

/-- C6 witness: two eligible companies, the second of which raises; the
fan-out still returns the merged, deduplicated results and ignoring the
raising company is indistinguishable from its returning zero results. -/
theorem C6_fanout_isolation_witness :
    find_people_at_companies fetchCE (eligible_targets [goodCo, badCo]) [goodCo, badCo] =
      Except.ok (dedupe_by_url ((eligible_targets [goodCo, badCo]).flatMap
        (fun a => (fetchCE a).getD [])))
  ∧ find_people_at_companies (fun x => if x = badCo then some [] else fetchCE x)
      (eligible_targets [goodCo, badCo]) [goodCo, badCo] =
      find_people_at_companies fetchCE (eligible_targets [goodCo, badCo]) [goodCo, badCo] := by
  have base := C6_fanout_isolation fetchCE (eligible_targets [goodCo, badCo])
    [goodCo, badCo] badCo (List.Perm.refl _)
  exact ⟨base.2.2.1 (by decide), base.2.2.2.2 (by simp [fetchCE])⟩

/-- C8: calling `find_people_at_companies` with a non-empty agencies list
whose every URL contains the fallback marker `linkedin.com/search/results/`
leaves the eligible-target list empty, so the executor is constructed with
`max_workers = min(0, 6) = 0` and raises `ValueError`; `run_search_logic`
does not catch it.  The branch is reachable from an ordinary
placeholder-only search outcome: with both real backends failing, the query
`"marketing agencies in texas"` makes `run_search_logic` fail with exactly
this error instead of returning a response with an empty `company_people`
list. -/
theorem C8_empty_targets_valueerror (agencies : List SearchResult)
    (fetch : SearchResult → Option (List SearchResult)) (order : List SearchResult) :
    (agencies ≠ [] →
     (∀ a ∈ agencies, strContains a.url "linkedin.com/search/results/" = true) →
     find_people_at_companies fetch order agencies =
       Except.error "ValueError: max_workers must be greater than 0")
  ∧ run_search_logic (fun q mr => search_web none none q mr) "marketing agencies in texas" =
      Except.error "ValueError: max_workers must be greater than 0" := by
  constructor
  · intro _ hall
    have ht : eligible_targets agencies = [] := by
      unfold eligible_targets
      rw [List.filter_eq_nil_iff]
      intro a ha
      have := hall a (List.take_subset _ _ ha)
      simp [this]
    simp [find_people_at_companies, ht]
  · rfl

/-- C8 witness: a single placeholder-style agency result makes the fan-out
raise the executor `ValueError`. -/
theorem C8_empty_targets_valueerror_witness :
    find_people_at_companies (fun _ => some []) [] [fallbackCo] =
      Except.error "ValueError: max_workers must be greater than 0" :=
  (C8_empty_targets_valueerror [fallbackCo] (fun _ => some []) []).1
    (by decide) (by decide)
